import Mathlib

/-!
Verification of the liquidity–amount conversion engine of
cyclos-protocol-v2 (`programs/non-fungible-position-manager/src/libraries/liquidity_amounts.rs`).

Machine integers are modelled as `Nat` carrying their width as a side
condition (`u64` values are `< 2 ^ 64`, `u32` values are `< 2 ^ 32`).
A Rust panic (a failed `unwrap()` or a division by zero) is modelled as
`none`; every fallible function returns an `Option`.
-/

namespace LiquidityAmounts

/-- Modelled from the spec: `fixed_point_x32::RESOLUTION` from
`cyclos_core::libraries::fixed_point_x32` (a module not present under the
sources given), the number of fractional bits of the Q32 fixed point. -/
def RESOLUTION : Nat := 32

/-- Modelled from the spec: `fixed_point_x32::Q32`, the Q32 fixed-point unit
`1 <<32 = 2^32`. -/
def Q32 : Nat := 2 ^ 32

/-- `MulDiv::mul_div_floor` for `u64` from the `muldiv` crate:
`⌊val * num / denom⌋` computed with a 128-bit intermediate (which cannot
overflow for 64-bit inputs), returning `none` when the denominator is zero or
the result does not fit in 64 bits. -/
def mul_div_floor (val num denom : Nat) : Option Nat :=
  if denom = 0 then none
  else if val * num / denom < 2 ^ 64 then some (val * num / denom)
  else none

/-- `u32::try_from` applied to a `u64` value: succeeds exactly when the value
fits in 32 bits. -/
def u32_try_from (v : Nat) : Option Nat :=
  if v < 2 ^ 32 then some v else none

/-- The boundary-normalization idiom shared by all six functions: the
`std::mem::swap` at the top of each puts the smaller sqrt price first. -/
def sort2 (a b : Nat) : Nat × Nat :=
  if a > b then (b, a) else (a, b)

/-- `get_liquidity_for_amount_0`: ΔL = Δx·(√P_upper·√P_lower)/(√P_upper−√P_lower),
via `intermediate = a.mul_div_floor(b, Q32)` then
`amount_0.mul_div_floor(intermediate, b - a)`, narrowed to `u32`. -/
def get_liquidity_for_amount_0 (sqrt_ratio_a_x32 sqrt_ratio_b_x32 amount_0 : Nat) :
    Option Nat :=
  let p := sort2 sqrt_ratio_a_x32 sqrt_ratio_b_x32
  (mul_div_floor p.1 p.2 Q32).bind fun intermediate =>
    (mul_div_floor amount_0 intermediate (p.2 - p.1)).bind fun l =>
      u32_try_from l

/-- `get_liquidity_for_amount_1`: ΔL = Δy/(√P_upper−√P_lower), via
`amount_1.mul_div_floor(Q32, b - a)`, narrowed to `u32`. -/
def get_liquidity_for_amount_1 (sqrt_ratio_a_x32 sqrt_ratio_b_x32 amount_1 : Nat) :
    Option Nat :=
  let p := sort2 sqrt_ratio_a_x32 sqrt_ratio_b_x32
  (mul_div_floor amount_1 Q32 (p.2 - p.1)).bind fun l =>
    u32_try_from l

/-- `get_liquidity_for_amounts`: three-way branch of the current price against
the normalized boundaries; in the middle branch both single-sided results are
computed and the minimum is taken. -/
def get_liquidity_for_amounts
    (sqrt_ratio_x32 sqrt_ratio_a_x32 sqrt_ratio_b_x32 amount_0 amount_1 : Nat) :
    Option Nat :=
  let p := sort2 sqrt_ratio_a_x32 sqrt_ratio_b_x32
  if sqrt_ratio_x32 ≤ p.1 then
    get_liquidity_for_amount_0 p.1 p.2 amount_0
  else if sqrt_ratio_x32 < p.2 then
    (get_liquidity_for_amount_0 sqrt_ratio_x32 p.2 amount_0).bind fun l0 =>
      (get_liquidity_for_amount_1 p.1 sqrt_ratio_x32 amount_1).map fun l1 =>
        min l0 l1
  else
    get_liquidity_for_amount_1 p.1 p.2 amount_1

/-- `get_amount_0_for_liquidity`: Δx = ΔL·(√P_upper−√P_lower)/(√P_upper·√P_lower),
via `((liquidity as u64) <<RESOLUTION).mul_div_floor(b - a, b)` followed by an
integer division by the lower boundary (a Rust division, which panics on a
zero divisor). -/
def get_amount_0_for_liquidity (sqrt_ratio_a_x32 sqrt_ratio_b_x32 liquidity : Nat) :
    Option Nat :=
  let p := sort2 sqrt_ratio_a_x32 sqrt_ratio_b_x32
  (mul_div_floor (liquidity * 2 ^ RESOLUTION) (p.2 - p.1) p.2).bind fun r =>
    if p.1 = 0 then none else some (r / p.1)

/-- `get_amount_1_for_liquidity`: Δy = ΔL·(√P_upper−√P_lower), via
`(liquidity as u64).mul_div_floor(b - a, Q32)`. -/
def get_amount_1_for_liquidity (sqrt_ratio_a_x32 sqrt_ratio_b_x32 liquidity : Nat) :
    Option Nat :=
  let p := sort2 sqrt_ratio_a_x32 sqrt_ratio_b_x32
  mul_div_floor liquidity (p.2 - p.1) Q32

/-- `get_amounts_for_liquidity`: the same three-way branch as
`get_liquidity_for_amounts`, paying out token_0 below the range, both tokens
inside it, and token_1 above it. -/
def get_amounts_for_liquidity
    (sqrt_ratio_x32 sqrt_ratio_a_x32 sqrt_ratio_b_x32 liquidity : Nat) :
    Option (Nat × Nat) :=
  let p := sort2 sqrt_ratio_a_x32 sqrt_ratio_b_x32
  if sqrt_ratio_x32 ≤ p.1 then
    (get_amount_0_for_liquidity p.1 p.2 liquidity).map fun a0 => (a0, 0)
  else if sqrt_ratio_x32 < p.2 then
    (get_amount_0_for_liquidity sqrt_ratio_x32 p.2 liquidity).bind fun a0 =>
      (get_amount_1_for_liquidity p.1 sqrt_ratio_x32 liquidity).map fun a1 =>
        (a0, a1)
  else
    (get_amount_1_for_liquidity p.1 p.2 liquidity).map fun a1 => (0, a1)

/-! ### Normalization lemmas -/

theorem sort2_eq_min_max (a b : Nat) : sort2 a b = (min a b, max a b) := by
  unfold sort2
  rcases le_or_lt a b with h | h
  · rw [if_neg (Nat.not_lt.mpr h), Nat.min_eq_left h, Nat.max_eq_right h]
  · rw [if_pos h, Nat.min_eq_right h.le, Nat.max_eq_left h.le]

theorem sort2_comm (a b : Nat) : sort2 a b = sort2 b a := by
  rw [sort2_eq_min_max, sort2_eq_min_max, Nat.min_comm, Nat.max_comm]

theorem sort2_of_le {l u : Nat} (h : l ≤ u) : sort2 l u = (l, u) := by
  rw [sort2_eq_min_max, Nat.min_eq_left h, Nat.max_eq_right h]

/-! ### Success characterizations of the primitives -/

theorem mul_div_floor_eq_some_iff (val num denom r : Nat) :
    mul_div_floor val num denom = some r ↔
      denom ≠ 0 ∧ val * num / denom < 2 ^ 64 ∧ r = val * num / denom := by
  unfold mul_div_floor
  split_ifs with h1 h2
  · exact ⟨fun h => h.elim, fun h => absurd h1 h.1⟩
  · constructor
    · exact fun h => ⟨h1, h2, (Option.some.inj h).symm⟩
    · rintro ⟨-, -, rfl⟩; rfl
  · constructor
    · exact fun h => h.elim
    · rintro ⟨-, h, -⟩; exact absurd h h2

theorem u32_try_from_eq_some_iff (v r : Nat) :
    u32_try_from v = some r ↔ v < 2 ^ 32 ∧ r = v := by
  unfold u32_try_from
  split_ifs with h1
  · constructor
    · exact fun h => ⟨h1, (Option.some.inj h).symm⟩
    · rintro ⟨-, rfl⟩; rfl
  · constructor
    · exact fun h => h.elim
    · rintro ⟨h, -⟩; exact absurd h h1

/-! ### Success characterizations of the six functions, for sorted boundaries -/

theorem get_liquidity_for_amount_0_char {l u : Nat} (hlu : l ≤ u) (am0 L : Nat) :
    get_liquidity_for_amount_0 l u am0 = some L ↔
      l * u / Q32 < 2 ^ 64 ∧ l < u ∧
      am0 * (l * u / Q32) / (u - l) < 2 ^ 32 ∧
      L = am0 * (l * u / Q32) / (u - l) := by
  simp only [get_liquidity_for_amount_0, sort2_of_le hlu, Option.bind_eq_some,
    mul_div_floor_eq_some_iff, u32_try_from_eq_some_iff]
  constructor
  · rintro ⟨i, ⟨-, h1, rfl⟩, m, ⟨h2, h3, rfl⟩, h4, rfl⟩
    exact ⟨h1, by omega, h4, rfl⟩
  · rintro ⟨h1, h2, h3, rfl⟩
    exact ⟨_, ⟨by decide, h1, rfl⟩, _, ⟨by omega, by omega, rfl⟩, h3, rfl⟩

theorem get_liquidity_for_amount_1_char {l u : Nat} (hlu : l ≤ u) (am1 L : Nat) :
    get_liquidity_for_amount_1 l u am1 = some L ↔
      l < u ∧ am1 * Q32 / (u - l) < 2 ^ 32 ∧ L = am1 * Q32 / (u - l) := by
  simp only [get_liquidity_for_amount_1, sort2_of_le hlu, Option.bind_eq_some,
    mul_div_floor_eq_some_iff, u32_try_from_eq_some_iff]
  constructor
  · rintro ⟨m, ⟨h2, h3, rfl⟩, h4, rfl⟩
    exact ⟨by omega, h4, rfl⟩
  · rintro ⟨h2, h3, rfl⟩
    exact ⟨_, ⟨by omega, by omega, rfl⟩, h3, rfl⟩

theorem get_amount_0_for_liquidity_char {l u : Nat} (hlu : l ≤ u) (L x : Nat) :
    get_amount_0_for_liquidity l u L = some x ↔
      0 < l ∧ L * 2 ^ RESOLUTION * (u - l) / u < 2 ^ 64 ∧
      x = L * 2 ^ RESOLUTION * (u - l) / u / l := by
  simp only [get_amount_0_for_liquidity, sort2_of_le hlu, Option.bind_eq_some,
    mul_div_floor_eq_some_iff]
  constructor
  · rintro ⟨r, ⟨h1, h2, rfl⟩, h3⟩
    by_cases hl : l = 0
    · rw [if_pos hl] at h3
      exact absurd h3 (by simp)
    · rw [if_neg hl] at h3
      exact ⟨by omega, h2, (Option.some.inj h3).symm⟩
  · rintro ⟨h1, h2, rfl⟩
    exact ⟨_, ⟨by omega, h2, rfl⟩, by rw [if_neg (by omega)]⟩

theorem get_amount_1_for_liquidity_char {l u : Nat} (hlu : l ≤ u) (L y : Nat) :
    get_amount_1_for_liquidity l u L = some y ↔
      L * (u - l) / Q32 < 2 ^ 64 ∧ y = L * (u - l) / Q32 := by
  simp only [get_amount_1_for_liquidity, sort2_of_le hlu, mul_div_floor_eq_some_iff]
  constructor
  · rintro ⟨-, h1, rfl⟩
    exact ⟨h1, rfl⟩
  · rintro ⟨h1, rfl⟩
    exact ⟨by decide, h1, rfl⟩

/-! ### Boundary-order invariance and branch reductions -/

theorem sort2_min_max (a b : Nat) : sort2 (min a b) (max a b) = (min a b, max a b) :=
  sort2_of_le min_le_max

theorem get_liquidity_for_amount_0_min_max (a b am0 : Nat) :
    get_liquidity_for_amount_0 a b am0 =
      get_liquidity_for_amount_0 (min a b) (max a b) am0 := by
  unfold get_liquidity_for_amount_0
  rw [sort2_eq_min_max, sort2_min_max]

theorem get_liquidity_for_amount_1_min_max (a b am1 : Nat) :
    get_liquidity_for_amount_1 a b am1 =
      get_liquidity_for_amount_1 (min a b) (max a b) am1 := by
  unfold get_liquidity_for_amount_1
  rw [sort2_eq_min_max, sort2_min_max]

theorem get_amount_0_for_liquidity_min_max (a b L : Nat) :
    get_amount_0_for_liquidity a b L =
      get_amount_0_for_liquidity (min a b) (max a b) L := by
  unfold get_amount_0_for_liquidity
  rw [sort2_eq_min_max, sort2_min_max]

theorem get_amount_1_for_liquidity_min_max (a b L : Nat) :
    get_amount_1_for_liquidity a b L =
      get_amount_1_for_liquidity (min a b) (max a b) L := by
  unfold get_amount_1_for_liquidity
  rw [sort2_eq_min_max, sort2_min_max]

theorem get_liquidity_for_amounts_below {x a b : Nat} (am0 am1 : Nat)
    (h : x ≤ min a b) :
    get_liquidity_for_amounts x a b am0 am1 = get_liquidity_for_amount_0 a b am0 := by
  unfold get_liquidity_for_amounts
  rw [sort2_eq_min_max]
  dsimp only
  rw [if_pos h, ← get_liquidity_for_amount_0_min_max]

theorem get_liquidity_for_amounts_within {x a b : Nat} (am0 am1 : Nat)
    (h1 : min a b < x) (h2 : x < max a b) :
    get_liquidity_for_amounts x a b am0 am1 =
      (get_liquidity_for_amount_0 x (max a b) am0).bind fun l0 =>
        (get_liquidity_for_amount_1 (min a b) x am1).map fun l1 => min l0 l1 := by
  unfold get_liquidity_for_amounts
  rw [sort2_eq_min_max]
  dsimp only
  rw [if_neg (by omega), if_pos h2]

theorem get_liquidity_for_amounts_above {x a b : Nat} (am0 am1 : Nat)
    (h1 : min a b < x) (h2 : max a b ≤ x) :
    get_liquidity_for_amounts x a b am0 am1 = get_liquidity_for_amount_1 a b am1 := by
  unfold get_liquidity_for_amounts
  rw [sort2_eq_min_max]
  dsimp only
  rw [if_neg (by omega), if_neg (by omega), ← get_liquidity_for_amount_1_min_max]

theorem get_amounts_for_liquidity_below {x a b : Nat} (L : Nat)
    (h : x ≤ min a b) :
    get_amounts_for_liquidity x a b L =
      (get_amount_0_for_liquidity a b L).map fun a0 => (a0, 0) := by
  unfold get_amounts_for_liquidity
  rw [sort2_eq_min_max]
  dsimp only
  rw [if_pos h, ← get_amount_0_for_liquidity_min_max]

theorem get_amounts_for_liquidity_within {x a b : Nat} (L : Nat)
    (h1 : min a b < x) (h2 : x < max a b) :
    get_amounts_for_liquidity x a b L =
      (get_amount_0_for_liquidity x (max a b) L).bind fun a0 =>
        (get_amount_1_for_liquidity (min a b) x L).map fun a1 => (a0, a1) := by
  unfold get_amounts_for_liquidity
  rw [sort2_eq_min_max]
  dsimp only
  rw [if_neg (by omega), if_pos h2]

theorem get_amounts_for_liquidity_above {x a b : Nat} (L : Nat)
    (h1 : min a b < x) (h2 : max a b ≤ x) :
    get_amounts_for_liquidity x a b L =
      (get_amount_1_for_liquidity a b L).map fun a1 => (0, a1) := by
  unfold get_amounts_for_liquidity
  rw [sort2_eq_min_max]
  dsimp only
  rw [if_neg (by omega), if_neg (by omega), ← get_amount_1_for_liquidity_min_max]

/-! ### Degenerate (zero-width) ranges make both liquidity conversions fail -/

theorem get_liquidity_for_amount_0_self (c am0 : Nat) :
    get_liquidity_for_amount_0 c c am0 = none := by
  cases h : get_liquidity_for_amount_0 c c am0 with
  | none => rfl
  | some L =>
    obtain ⟨-, hlt, -, -⟩ := (get_liquidity_for_amount_0_char le_rfl am0 L).mp h
    omega

theorem get_liquidity_for_amount_1_self (c am1 : Nat) :
    get_liquidity_for_amount_1 c c am1 = none := by
  cases h : get_liquidity_for_amount_1 c c am1 with
  | none => rfl
  | some L =>
    obtain ⟨hlt, -, -⟩ := (get_liquidity_for_amount_1_char le_rfl am1 L).mp h
    omega

/-! ### Arithmetic facts behind the round-trip inequality -/

theorem pow_resolution_eq : 2 ^ RESOLUTION = Q32 := rfl

/-- If `L * (u - l) ≤ am0 * ⌊l·u/Q32⌋` then the token_0 payout for `L` over
`[l, u]` is at most `am0`. -/
theorem amount0_payout_le {l u L am0 : Nat}
    (h : L * (u - l) ≤ am0 * (l * u / Q32)) :
    L * 2 ^ RESOLUTION * (u - l) / u / l ≤ am0 := by
  rw [Nat.div_div_eq_div_mul]
  apply Nat.div_le_of_le_mul
  calc L * 2 ^ RESOLUTION * (u - l)
      = L * (u - l) * Q32 := by rw [pow_resolution_eq]; ring
    _ ≤ am0 * (l * u / Q32) * Q32 := Nat.mul_le_mul h le_rfl
    _ ≤ am0 * (l * u) := by
        rw [mul_assoc]
        exact Nat.mul_le_mul le_rfl (Nat.div_mul_le_self _ _)
    _ = u * l * am0 := by ring

/-- If `L * (u - l) ≤ am1 * Q32` then the token_1 payout for `L` over `[l, u]`
is at most `am1`. -/
theorem amount1_payout_le {l u L am1 : Nat}
    (h : L * (u - l) ≤ am1 * Q32) :
    L * (u - l) / Q32 ≤ am1 := by
  apply Nat.div_le_of_le_mul
  rw [Nat.mul_comm Q32 am1]
  exact h

/-! ### Claims -/

/-- Claim C1: round-trip rounding direction — for every boundary pair, current
price and deposited amounts for which both conversions succeed, depositing
`(amount_0, amount_1)`, flooring to liquidity `L`, and valuing `L` back into
amounts yields `x ≤ amount_0` and `y ≤ amount_1`, never greater. -/
theorem claim_c1_roundtrip_amounts_le (P a b am0 am1 L x y : Nat)
    (hL : get_liquidity_for_amounts P a b am0 am1 = some L)
    (hxy : get_amounts_for_liquidity P a b L = some (x, y)) :
    x ≤ am0 ∧ y ≤ am1 := by
  by_cases h1 : P ≤ min a b
  · -- price at or below the range: all value in token_0
    rw [get_liquidity_for_amounts_below am0 am1 h1,
      get_liquidity_for_amount_0_min_max] at hL
    rw [get_amounts_for_liquidity_below L h1,
      get_amount_0_for_liquidity_min_max, Option.map_eq_some'] at hxy
    obtain ⟨a0, ha0, hpair⟩ := hxy
    obtain ⟨hx, hy⟩ := Prod.mk.inj hpair
    obtain ⟨-, -, -, hLv⟩ := (get_liquidity_for_amount_0_char min_le_max am0 L).mp hL
    obtain ⟨-, -, ha0v⟩ := (get_amount_0_for_liquidity_char min_le_max L a0).mp ha0
    refine ⟨?_, by omega⟩
    rw [← hx, ha0v]
    apply amount0_payout_le
    rw [hLv]
    exact Nat.div_mul_le_self _ _
  · by_cases h2 : P < max a b
    · -- price strictly inside the range: both sides active
      rw [get_liquidity_for_amounts_within am0 am1 (by omega) h2,
        Option.bind_eq_some] at hL
      obtain ⟨l0, hl0, hmap⟩ := hL
      rw [Option.map_eq_some'] at hmap
      obtain ⟨l1, hl1, hLmin⟩ := hmap
      rw [get_amounts_for_liquidity_within L (by omega) h2,
        Option.bind_eq_some] at hxy
      obtain ⟨a0, ha0, hmap2⟩ := hxy
      rw [Option.map_eq_some'] at hmap2
      obtain ⟨a1, ha1, hpair⟩ := hmap2
      obtain ⟨hx, hy⟩ := Prod.mk.inj hpair
      obtain ⟨-, -, -, hl0v⟩ :=
        (get_liquidity_for_amount_0_char h2.le am0 l0).mp hl0
      obtain ⟨-, -, hl1v⟩ :=
        (get_liquidity_for_amount_1_char (by omega : min a b ≤ P) am1 l1).mp hl1
      obtain ⟨-, -, ha0v⟩ := (get_amount_0_for_liquidity_char h2.le L a0).mp ha0
      obtain ⟨-, ha1v⟩ :=
        (get_amount_1_for_liquidity_char (by omega : min a b ≤ P) L a1).mp ha1
      constructor
      · rw [← hx, ha0v]
        apply amount0_payout_le
        calc L * (max a b - P) ≤ l0 * (max a b - P) :=
              Nat.mul_le_mul (hLmin ▸ min_le_left l0 l1) le_rfl
          _ ≤ am0 * (P * max a b / Q32) := by
              rw [hl0v]; exact Nat.div_mul_le_self _ _
      · rw [← hy, ha1v]
        apply amount1_payout_le
        calc L * (P - min a b) ≤ l1 * (P - min a b) :=
              Nat.mul_le_mul (hLmin ▸ min_le_right l0 l1) le_rfl
          _ ≤ am1 * Q32 := by
              rw [hl1v]; exact Nat.div_mul_le_self _ _
    · -- price at or above the range: all value in token_1
      rw [get_liquidity_for_amounts_above am0 am1 (by omega) (by omega),
        get_liquidity_for_amount_1_min_max] at hL
      rw [get_amounts_for_liquidity_above L (by omega) (by omega),
        get_amount_1_for_liquidity_min_max, Option.map_eq_some'] at hxy
      obtain ⟨a1, ha1, hpair⟩ := hxy
      obtain ⟨hx, hy⟩ := Prod.mk.inj hpair
      obtain ⟨-, -, hLv⟩ := (get_liquidity_for_amount_1_char min_le_max am1 L).mp hL
      obtain ⟨-, ha1v⟩ := (get_amount_1_for_liquidity_char min_le_max L a1).mp ha1
      refine ⟨by omega, ?_⟩
      rw [← hy, ha1v]
      apply amount1_payout_le
      rw [hLv]
      exact Nat.div_mul_le_self _ _

/-- Concrete instance of C1 at the repository's own `price_within_range` test
fixture. -/
theorem claim_c1_roundtrip_amounts_le_witness :
    get_liquidity_for_amounts 4294967296 4095090639 4504599703 100 200 = some 2148 ∧
    get_amounts_for_liquidity 4294967296 4095090639 4504599703 2148 = some (99, 99) ∧
    (99 : Nat) ≤ 100 ∧ (99 : Nat) ≤ 200 :=
  ⟨by decide, by decide,
    claim_c1_roundtrip_amounts_le 4294967296 4095090639 4504599703 100 200 2148 99 99
      (by decide) (by decide)⟩

/-- Claim C2: two-sided minimum — when the normalized boundaries satisfy
`lower < current_price < upper`, `get_liquidity_for_amounts` returns exactly
the minimum of the single-sided results
`get_liquidity_for_amount_0(current_price, upper, amount_0)` and
`get_liquidity_for_amount_1(lower, current_price, amount_1)`. -/
theorem claim_c2_two_sided_minimum (P a b am0 am1 l0 l1 : Nat)
    (h1 : min a b < P) (h2 : P < max a b)
    (hl0 : get_liquidity_for_amount_0 P (max a b) am0 = some l0)
    (hl1 : get_liquidity_for_amount_1 (min a b) P am1 = some l1) :
    get_liquidity_for_amounts P a b am0 am1 = some (min l0 l1) := by
  rw [get_liquidity_for_amounts_within am0 am1 h1 h2, hl0, Option.some_bind, hl1,
    Option.map_some']

/-- Concrete instance of C2 at the repository's `price_within_range` fixture:
the two-sided result `2148` is the minimum of the single-sided results
`2148` and `4297`. -/
theorem claim_c2_two_sided_minimum_witness :
    min 4095090639 4504599703 < 4294967296 ∧
    (4294967296 : Nat) < max 4095090639 4504599703 ∧
    get_liquidity_for_amount_0 4294967296 (max 4095090639 4504599703) 100 =
      some 2148 ∧
    get_liquidity_for_amount_1 (min 4095090639 4504599703) 4294967296 200 =
      some 4297 ∧
    get_liquidity_for_amounts 4294967296 4095090639 4504599703 100 200 =
      some (min 2148 4297) :=
  ⟨by decide, by decide, by decide, by decide,
    claim_c2_two_sided_minimum 4294967296 4095090639 4504599703 100 200 2148 4297
      (by decide) (by decide) (by decide) (by decide)⟩

/-- Claim C3: boundary tie-break — at `current_price = lower` the liquidity
conversion equals the single-sided token_0 result and a successful amounts
conversion pays zero token_1; at `current_price = upper` it equals the
single-sided token_1 result and a successful amounts conversion pays zero
token_0. -/
theorem claim_c3_boundary_tie_break (a b am0 am1 L x y : Nat) :
    (get_liquidity_for_amounts (min a b) a b am0 am1 =
      get_liquidity_for_amount_0 a b am0) ∧
    (get_liquidity_for_amounts (max a b) a b am0 am1 =
      get_liquidity_for_amount_1 a b am1) ∧
    (get_amounts_for_liquidity (min a b) a b L = some (x, y) → y = 0) ∧
    (get_amounts_for_liquidity (max a b) a b L = some (x, y) → x = 0) := by
  have hmm : min a b ≤ max a b := min_le_max
  refine ⟨get_liquidity_for_amounts_below am0 am1 le_rfl, ?_, ?_, ?_⟩
  · by_cases hab : min a b < max a b
    · exact get_liquidity_for_amounts_above am0 am1 hab le_rfl
    · have heq : min a b = max a b := by omega
      rw [get_liquidity_for_amounts_below am0 am1 (by omega),
        get_liquidity_for_amount_0_min_max, heq,
        get_liquidity_for_amount_0_self,
        get_liquidity_for_amount_1_min_max, heq,
        get_liquidity_for_amount_1_self]
  · intro h
    rw [get_amounts_for_liquidity_below L le_rfl, Option.map_eq_some'] at h
    obtain ⟨a0, -, hpair⟩ := h
    exact (Prod.mk.inj hpair).2.symm
  · intro h
    by_cases hab : min a b < max a b
    · rw [get_amounts_for_liquidity_above L hab le_rfl, Option.map_eq_some'] at h
      obtain ⟨a1, -, hpair⟩ := h
      exact (Prod.mk.inj hpair).1.symm
    · have heq : min a b = max a b := by omega
      rw [get_amounts_for_liquidity_below L (by omega),
        get_amount_0_for_liquidity_min_max, Option.map_eq_some'] at h
      obtain ⟨a0, ha0, hpair⟩ := h
      obtain ⟨-, -, ha0v⟩ :=
        (get_amount_0_for_liquidity_char hmm L a0).mp ha0
      rw [heq, Nat.sub_self, Nat.mul_zero, Nat.zero_div, Nat.zero_div] at ha0v
      have := (Prod.mk.inj hpair).1
      omega

/-- Concrete instances of C3's amount-side tie-breaks at the repository's
boundary fixtures. -/
theorem claim_c3_boundary_tie_break_witness :
    get_amounts_for_liquidity (min 4095090639 4504599703) 4095090639 4504599703
      1048 = some (99, 0) ∧
    get_amounts_for_liquidity (max 4095090639 4504599703) 4095090639 4504599703
      2097 = some (0, 199) ∧
    (0 : Nat) = 0 ∧ (0 : Nat) = 0 :=
  ⟨by decide, by decide,
    (claim_c3_boundary_tie_break 4095090639 4504599703 100 200 1048 99 0).2.2.1
      (by decide),
    (claim_c3_boundary_tie_break 4095090639 4504599703 100 200 2097 0 199).2.2.2
      (by decide)⟩

/-- Counterexample to C4 as stated: at boundaries `2^63 < 2^63 + 1` with
`amount_0 = 0` the claimed quantity
`⌊amount_0·⌊lower·upper/2^32⌋/(upper−lower)⌋ = 0` fits in 32 bits, yet the
call fails, because the 64-bit intermediate `⌊lower·upper/2^32⌋` overflows
before the narrowing step is reached. -/
theorem claim_c4_counterexample :
    min (2 ^ 63) (2 ^ 63 + 1) < max (2 ^ 63) (2 ^ 63 + 1) ∧
    0 * (min (2 ^ 63) (2 ^ 63 + 1) * max (2 ^ 63) (2 ^ 63 + 1) / Q32) /
        (max (2 ^ 63) (2 ^ 63 + 1) - min (2 ^ 63) (2 ^ 63 + 1)) < 2 ^ 32 ∧
    get_liquidity_for_amount_0 (2 ^ 63) (2 ^ 63 + 1) 0 = none := by
  exact ⟨by decide, by decide, by decide⟩

/-- Claim C4 (amended): for normalized `lower < upper`,
`get_liquidity_for_amount_0` returns
`⌊amount_0·⌊lower·upper/Q32⌋/(upper−lower)⌋` narrowed to 32 bits; it fails
exactly when the 64-bit intermediate `⌊lower·upper/Q32⌋` does not fit in
64 bits or when that quantity does not fit in 32 bits. -/
theorem claim_c4_liquidity0_formula (a b am0 : Nat) (hab : min a b < max a b) :
    (min a b * max a b / Q32 < 2 ^ 64 ∧
        am0 * (min a b * max a b / Q32) / (max a b - min a b) < 2 ^ 32 →
      get_liquidity_for_amount_0 a b am0 =
        some (am0 * (min a b * max a b / Q32) / (max a b - min a b))) ∧
    (2 ^ 64 ≤ min a b * max a b / Q32 ∨
        2 ^ 32 ≤ am0 * (min a b * max a b / Q32) / (max a b - min a b) →
      get_liquidity_for_amount_0 a b am0 = none) := by
  constructor
  · rintro ⟨h1, h2⟩
    rw [get_liquidity_for_amount_0_min_max]
    exact (get_liquidity_for_amount_0_char min_le_max am0 _).mpr ⟨h1, hab, h2, rfl⟩
  · intro h
    cases hgl : get_liquidity_for_amount_0 a b am0 with
    | none => rfl
    | some L =>
      rw [get_liquidity_for_amount_0_min_max] at hgl
      obtain ⟨h1, -, h2, -⟩ :=
        (get_liquidity_for_amount_0_char min_le_max am0 L).mp hgl
      omega

/-- Concrete instances of both directions of the amended C4. -/
theorem claim_c4_liquidity0_formula_witness :
    get_liquidity_for_amount_0 (2 ^ 32) (2 ^ 33) 100 =
      some (100 * (min (2 ^ 32) (2 ^ 33) * max (2 ^ 32) (2 ^ 33) / Q32) /
        (max (2 ^ 32) (2 ^ 33) - min (2 ^ 32) (2 ^ 33))) ∧
    get_liquidity_for_amount_0 (2 ^ 63) (2 ^ 63 + 1) 5 = none :=
  ⟨(claim_c4_liquidity0_formula (2 ^ 32) (2 ^ 33) 100 (by decide)).1
      ⟨by decide, by decide⟩,
    (claim_c4_liquidity0_formula (2 ^ 63) (2 ^ 63 + 1) 5 (by decide)).2
      (Or.inl (by decide))⟩

/-- Claim C5: token_0 payout formula — for normalized `0 < lower < upper` and
a 32-bit liquidity, `get_amount_0_for_liquidity` succeeds and returns
`⌊⌊(liquidity·2^32)·(upper−lower)/upper⌋/lower⌋`, and the 64-bit scaled
multiply-divide intermediate does not overflow before the final narrowing
divide. -/
theorem claim_c5_amount0_formula (a b L : Nat) (h0 : 0 < min a b)
    (hab : min a b < max a b) (hL : L < 2 ^ 32) :
    L * 2 ^ RESOLUTION * (max a b - min a b) / max a b < 2 ^ 64 ∧
    get_amount_0_for_liquidity a b L =
      some (L * 2 ^ RESOLUTION * (max a b - min a b) / max a b / min a b) := by
  have h2 : L * 2 ^ RESOLUTION * (max a b - min a b) / max a b ≤
      L * 2 ^ RESOLUTION := by
    apply Nat.div_le_of_le_mul
    rw [Nat.mul_comm (max a b) (L * 2 ^ RESOLUTION)]
    exact Nat.mul_le_mul le_rfl (Nat.sub_le _ _)
  have h3 : L * 2 ^ RESOLUTION < 2 ^ 64 := by
    calc L * 2 ^ RESOLUTION < 2 ^ 32 * 2 ^ RESOLUTION :=
          Nat.mul_lt_mul_of_pos_right hL (by decide)
      _ = 2 ^ 64 := by decide
  have hfit : L * 2 ^ RESOLUTION * (max a b - min a b) / max a b < 2 ^ 64 :=
    lt_of_le_of_lt h2 h3
  refine ⟨hfit, ?_⟩
  rw [get_amount_0_for_liquidity_min_max]
  exact (get_amount_0_for_liquidity_char min_le_max L _).mpr ⟨h0, hfit, rfl⟩

/-- Concrete instance of C5. -/
theorem claim_c5_amount0_formula_witness :
    LiquidityAmounts.get_amount_0_for_liquidity (2 ^ 32) (2 ^ 33) 100 =
      some (100 * 2 ^ RESOLUTION * (max (2 ^ 32) (2 ^ 33) - min (2 ^ 32) (2 ^ 33)) /
        max (2 ^ 32) (2 ^ 33) / min (2 ^ 32) (2 ^ 33)) :=
  (claim_c5_amount0_formula (2 ^ 32) (2 ^ 33) 100 (by decide) (by decide)
    (by decide)).2

/-- Counterexample to C6 as stated: with boundaries `2^32 − 1 < 2^32 + 1`,
current price `2^32` strictly inside, and liquidity `1 > 0`, both sides floor
to zero and the returned pair is `(0, 0)`. -/
theorem claim_c6_counterexample :
    min (2 ^ 32 - 1) (2 ^ 32 + 1) < 2 ^ 32 ∧
    (2 ^ 32 : Nat) < max (2 ^ 32 - 1) (2 ^ 32 + 1) ∧
    (0 : Nat) < 1 ∧
    get_amounts_for_liquidity (2 ^ 32) (2 ^ 32 - 1) (2 ^ 32 + 1) 1 =
      some (0, 0) := by
  exact ⟨by decide, by decide, by decide, by decide⟩

/-- Claim C6 (amended): for `lower < current_price < upper`, a successful
`get_amounts_for_liquidity` returns a strictly positive amount on at least one
side whenever `liquidity · (current_price − lower) ≥ Q32` (the token_1 side is
then positive); for smaller liquidity both sides may floor to zero. -/
theorem claim_c6_positive_side (P a b L x y : Nat)
    (h1 : min a b < P) (h2 : P < max a b)
    (hbig : Q32 ≤ L * (P - min a b))
    (hxy : get_amounts_for_liquidity P a b L = some (x, y)) :
    0 < x ∨ 0 < y := by
  rw [get_amounts_for_liquidity_within L h1 h2, Option.bind_eq_some] at hxy
  obtain ⟨a0, -, hmap⟩ := hxy
  rw [Option.map_eq_some'] at hmap
  obtain ⟨a1, ha1, hpair⟩ := hmap
  obtain ⟨-, hy⟩ := Prod.mk.inj hpair
  obtain ⟨-, ha1v⟩ := (get_amount_1_for_liquidity_char h1.le L a1).mp ha1
  right
  rw [← hy, ha1v]
  exact (Nat.one_le_div_iff (by decide)).mpr hbig

/-- Concrete instance of the amended C6: one unit of liquidity over a range
wide enough that the token_1 side pays out. -/
theorem claim_c6_positive_side_witness :
    get_amounts_for_liquidity (2 ^ 33) (2 ^ 32) (2 ^ 34) 1 = some (0, 1) ∧
    (0 < (0 : Nat) ∨ 0 < (1 : Nat)) :=
  ⟨by decide,
    claim_c6_positive_side (2 ^ 33) (2 ^ 32) (2 ^ 34) 1 0 1 (by decide) (by decide)
      (by decide) (by decide)⟩

/-- Claim C7: normalization symmetry — each of the six conversion functions
gives the same result with boundaries `(a, b)` as with `(b, a)`. -/
theorem claim_c7_boundary_symmetry (P a b am0 am1 L : Nat) :
    get_liquidity_for_amount_0 a b am0 = get_liquidity_for_amount_0 b a am0 ∧
    get_liquidity_for_amount_1 a b am1 = get_liquidity_for_amount_1 b a am1 ∧
    get_liquidity_for_amounts P a b am0 am1 =
      get_liquidity_for_amounts P b a am0 am1 ∧
    get_amount_0_for_liquidity a b L = get_amount_0_for_liquidity b a L ∧
    get_amount_1_for_liquidity a b L = get_amount_1_for_liquidity b a L ∧
    get_amounts_for_liquidity P a b L = get_amounts_for_liquidity P b a L := by
  unfold get_liquidity_for_amount_0 get_liquidity_for_amount_1
    get_liquidity_for_amounts get_amount_0_for_liquidity
    get_amount_1_for_liquidity get_amounts_for_liquidity
  rw [sort2_comm a b]
  exact ⟨rfl, rfl, rfl, rfl, rfl, rfl⟩

/-- Claim C8: monotonicity in the amount argument — with the boundaries held
fixed, whenever both calls succeed a larger deposited amount never yields a
smaller liquidity, on either single-sided conversion. -/
theorem claim_c8_amount_monotonicity (a b x y r s v w : Nat) :
    (x ≤ y → get_liquidity_for_amount_0 a b x = some r →
      get_liquidity_for_amount_0 a b y = some s → r ≤ s) ∧
    (x ≤ y → get_liquidity_for_amount_1 a b x = some v →
      get_liquidity_for_amount_1 a b y = some w → v ≤ w) := by
  constructor
  · intro hxy h h'
    rw [get_liquidity_for_amount_0_min_max] at h h'
    obtain ⟨-, -, -, hv⟩ := (get_liquidity_for_amount_0_char min_le_max x r).mp h
    obtain ⟨-, -, -, hv'⟩ := (get_liquidity_for_amount_0_char min_le_max y s).mp h'
    rw [hv, hv']
    exact Nat.div_le_div_right (Nat.mul_le_mul hxy le_rfl)
  · intro hxy h h'
    rw [get_liquidity_for_amount_1_min_max] at h h'
    obtain ⟨-, -, hv⟩ := (get_liquidity_for_amount_1_char min_le_max x v).mp h
    obtain ⟨-, -, hv'⟩ := (get_liquidity_for_amount_1_char min_le_max y w).mp h'
    rw [hv, hv']
    exact Nat.div_le_div_right (Nat.mul_le_mul hxy le_rfl)

/-- Concrete instance of C8 on both single-sided conversions. -/
theorem claim_c8_amount_monotonicity_witness :
    get_liquidity_for_amount_0 (2 ^ 32) (2 ^ 33) 100 = some 200 ∧
    get_liquidity_for_amount_0 (2 ^ 32) (2 ^ 33) 150 = some 300 ∧
    get_liquidity_for_amount_1 (2 ^ 32) (2 ^ 33) 100 = some 100 ∧
    get_liquidity_for_amount_1 (2 ^ 32) (2 ^ 33) 150 = some 150 ∧
    (200 : Nat) ≤ 300 ∧ (100 : Nat) ≤ 150 :=
  ⟨by decide, by decide, by decide, by decide,
    (claim_c8_amount_monotonicity (2 ^ 32) (2 ^ 33) 100 150 200 300 0 0).1
      (by decide) (by decide) (by decide),
    (claim_c8_amount_monotonicity (2 ^ 32) (2 ^ 33) 100 150 0 0 100 150).2
      (by decide) (by decide) (by decide)⟩

/-- Claim C9: overflow failure policy — a successful result of either
liquidity conversion is the exact floored mathematical value and fits the
32-bit target (with the 64-bit intermediate in range), and any input whose
narrowed value exceeds 32 bits yields `none`: the functions never return a
wrapped or saturated number. -/
theorem claim_c9_overflow_policy (a b am0 am1 v w : Nat) :
    (get_liquidity_for_amount_0 a b am0 = some v →
      v = am0 * (min a b * max a b / Q32) / (max a b - min a b) ∧
      v < 2 ^ 32 ∧ min a b * max a b / Q32 < 2 ^ 64) ∧
    (get_liquidity_for_amount_1 a b am1 = some w →
      w = am1 * Q32 / (max a b - min a b) ∧ w < 2 ^ 32) ∧
    (2 ^ 32 ≤ am0 * (min a b * max a b / Q32) / (max a b - min a b) →
      get_liquidity_for_amount_0 a b am0 = none) ∧
    (2 ^ 32 ≤ am1 * Q32 / (max a b - min a b) →
      get_liquidity_for_amount_1 a b am1 = none) := by
  refine ⟨?_, ?_, ?_, ?_⟩
  · intro h
    rw [get_liquidity_for_amount_0_min_max] at h
    obtain ⟨h1, -, h2, h3⟩ := (get_liquidity_for_amount_0_char min_le_max am0 v).mp h
    omega
  · intro h
    rw [get_liquidity_for_amount_1_min_max] at h
    obtain ⟨-, h2, h3⟩ := (get_liquidity_for_amount_1_char min_le_max am1 w).mp h
    omega
  · intro h
    cases hgl : get_liquidity_for_amount_0 a b am0 with
    | none => rfl
    | some L =>
      rw [get_liquidity_for_amount_0_min_max] at hgl
      obtain ⟨-, -, h2, -⟩ :=
        (get_liquidity_for_amount_0_char min_le_max am0 L).mp hgl
      omega
  · intro h
    cases hgl : get_liquidity_for_amount_1 a b am1 with
    | none => rfl
    | some L =>
      rw [get_liquidity_for_amount_1_min_max] at hgl
      obtain ⟨-, h2, -⟩ :=
        (get_liquidity_for_amount_1_char min_le_max am1 L).mp hgl
      omega

/-- Concrete instances of C9: exact in-range results, and failures when the
32-bit narrowing would overflow. -/
theorem claim_c9_overflow_policy_witness :
    ((200 : Nat) =
        100 * (min (2 ^ 32) (2 ^ 33) * max (2 ^ 32) (2 ^ 33) / Q32) /
          (max (2 ^ 32) (2 ^ 33) - min (2 ^ 32) (2 ^ 33)) ∧
      (200 : Nat) < 2 ^ 32 ∧
      min (2 ^ 32) (2 ^ 33) * max (2 ^ 32) (2 ^ 33) / Q32 < 2 ^ 64) ∧
    get_liquidity_for_amount_0 (2 ^ 32) (2 ^ 33) (2 ^ 62) = none ∧
    get_liquidity_for_amount_1 (2 ^ 32) (2 ^ 33) (2 ^ 62) = none :=
  ⟨(claim_c9_overflow_policy (2 ^ 32) (2 ^ 33) 100 0 200 0).1 (by decide),
    (claim_c9_overflow_policy (2 ^ 32) (2 ^ 33) (2 ^ 62) 0 0 0).2.2.1 (by decide),
    (claim_c9_overflow_policy (2 ^ 32) (2 ^ 33) 0 (2 ^ 62) 0 0).2.2.2 (by decide)⟩

/-- Claim C10: totality of `get_amount_1_for_liquidity` — for any 64-bit
boundaries (equal ones allowed) and 32-bit liquidity, the quotient
`⌊liquidity·(upper−lower)/Q32⌋` fits in 64 bits because `liquidity < 2^32`,
so the function never fails and returns that quotient. -/
theorem claim_c10_amount1_total (a b L : Nat) (ha : a < 2 ^ 64)
    (hb : b < 2 ^ 64) (hL : L < 2 ^ 32) :
    get_amount_1_for_liquidity a b L =
      some (L * (max a b - min a b) / Q32) := by
  rw [get_amount_1_for_liquidity_min_max]
  apply (get_amount_1_for_liquidity_char min_le_max L _).mpr
  refine ⟨?_, rfl⟩
  apply Nat.div_lt_of_lt_mul
  have hmul : L * (max a b - min a b) ≤ (2 ^ 32 - 1) * (2 ^ 64 - 1) :=
    Nat.mul_le_mul (by omega) (by omega)
  calc L * (max a b - min a b) ≤ (2 ^ 32 - 1) * (2 ^ 64 - 1) := hmul
    _ < Q32 * 2 ^ 64 := by decide

/-- Concrete instance of C10, with equal boundaries. -/
theorem claim_c10_amount1_total_witness :
    get_amount_1_for_liquidity 4294967296 4294967296 4294967295 =
      some (4294967295 * (max 4294967296 4294967296 - min 4294967296 4294967296) /
        Q32) :=
  claim_c10_amount1_total 4294967296 4294967296 4294967295 (by decide) (by decide)
    (by decide)

end LiquidityAmounts
